import Mathlib

/-!
Verification of the rel repository: relocatable data structures and the
allocator infrastructure (Control, Slab, the header-prefixed allocator,
and the RelShortString inline/spill string type).

The development shallowly embeds the Rust sources:
  - machine integers are modelled as Nat, with the 64-bit bitwise
    operations written out explicitly where the source uses them;
  - a raw memory segment is a function from absolute byte addresses to
    byte values;
  - fallible operations return Option or an explicit result inductive;
  - reads of uninitialized fields are modelled as Option.none so that an
    access which Rust would leave undefined is visible in the model.
-/

/-- A raw byte memory: absolute address to byte value. -/
def Mem : Type := Nat → Nat

/-- The value of core::alloc::Layout: a size and an alignment in bytes.
Layout guarantees that align is a power of two; theorems that need this
take it as a hypothesis. -/
structure Layout where
  size : Nat
  align : Nat
deriving DecidableEq

/-- Modulus of the usize type (the sources target 64-bit usize). -/
def USIZE_MOD : Nat := 2 ^ 64

/-- Bitwise NOT on usize: the complement of x within 64 bits, i.e.
USIZE_MOD - 1 - x for x below USIZE_MOD. -/
def not64 (x : Nat) : Nat := (USIZE_MOD - 1) - x

/-- Bitwise AND with a low-bit mask is reduction mod a power of two. -/
theorem land_pow_two_sub_one (x k : Nat) : x &&& (2 ^ k - 1) = x % 2 ^ k := by
  apply Nat.eq_of_testBit_eq
  intro i
  rw [Nat.testBit_and, Nat.testBit_two_pow_sub_one, Nat.testBit_mod_two_pow,
    Bool.and_comm]

/-!
## Slab control (src/rel_allocators/src/slab.rs)

The Slab state is a single length counter (a Cell of the basis usize).
Its allocate reads the raw parts of the memory segment (base pointer and
length), rejects the request if the segment base is not aligned to the
requested alignment, rounds the counter up to the alignment with
(len + align - 1) and !(align - 1), and compares the remaining capacity
against the requested size.

The source computes available = cap - start with usize subtraction.  When
the rounded start exceeds cap this subtraction underflows: in a debug
build it panics, in a release build it wraps around to a huge value.  The
model makes this outcome explicit as SlabResult.underflow instead of
silently picking one of the two behaviors.
-/

/-- Outcome of Slab.allocate. ok carries the new length counter, the
absolute address of the returned block and its size. -/
inductive SlabResult where
  | ok (newLen : Nat) (addr : Nat) (size : Nat)
  | allocError
  | underflow
deriving DecidableEq

/-- Slab.allocate from src/rel_allocators/src/slab.rs lines 41-64.
base and cap are the raw parts of the memory segment, len is the current
value of the length counter. -/
def Slab.allocate (base cap len : Nat) (layout : Layout) : SlabResult :=
  if base &&& (layout.align - 1) ≠ 0 then
    .allocError
  else
    let start := (len + layout.align - 1) &&& not64 (layout.align - 1)
    if start ≤ cap then
      let available := cap - start
      if available < layout.size then
        .allocError
      else
        .ok (start + layout.size) (base + start) layout.size
    else
      .underflow

/-- Slab.deallocate from src/rel_allocators/src/slab.rs lines 66-72: the
body is empty, so the length counter is returned unchanged. -/
def Slab.deallocate (len : Nat) (_ptr : Nat) (_layout : Layout) : Nat := len

/-- An operation against one Slab: an allocation request or a
deallocation of a previously returned block. -/
inductive SlabOp where
  | alloc (layout : Layout)
  | dealloc (ptr : Nat) (layout : Layout)

/-- Whether a SlabOp is an allocation. -/
def SlabOp.isAlloc : SlabOp → Bool
  | .alloc _ => true
  | .dealloc _ _ => false

/-- Run a sequence of Slab operations from a given counter value,
collecting the result of every allocate call. -/
def Slab.runOps (base cap : Nat) (len : Nat) : List SlabOp → List SlabResult
  | [] => []
  | .alloc l :: rest =>
    let r := Slab.allocate base cap len l
    r :: Slab.runOps base cap
      (match r with | .ok n _ _ => n | _ => len) rest
  | .dealloc p l :: rest =>
    Slab.runOps base cap (Slab.deallocate len p l) rest

example : Slab.allocate 0 1024 0 ⟨17, 1⟩ = .ok 17 0 17 := by decide
example : Slab.allocate 0 10 10 ⟨1, 16⟩ = .underflow := by decide
example : Slab.allocate 1 10 0 ⟨1, 2⟩ = .allocError := by decide

/-- Interleaving deallocations into an operation sequence never changes
the allocate results, because deallocate leaves the counter unchanged. -/
theorem Slab.runOps_filter_deallocs (base cap : Nat) :
    ∀ (ops : List SlabOp) (len : Nat),
      Slab.runOps base cap len ops
        = Slab.runOps base cap len (ops.filter SlabOp.isAlloc) := by
  intro ops
  induction ops with
  | nil => intro len; rfl
  | cons op rest ih =>
    intro len
    cases op with
    | alloc l =>
      simp only [Slab.runOps, List.filter_cons, SlabOp.isAlloc, if_pos]
      exact congrArg _ (ih _)
    | dealloc p l =>
      simp only [Slab.runOps, List.filter_cons, SlabOp.isAlloc,
        Bool.false_eq_true, if_false, Slab.deallocate]
      exact ih _

/-- C9: Slab.deallocate is a no-op: its body is empty, so the length
counter and every other observable part of the Slab state are unchanged,
and any sequence of allocate calls returns the same results whether or
not deallocate calls are interleaved. -/
theorem slab_deallocate_noop (base cap len ptr : Nat) (layout : Layout)
    (ops : List SlabOp) :
    Slab.deallocate len ptr layout = len ∧
    Slab.runOps base cap len ops
      = Slab.runOps base cap len (ops.filter SlabOp.isAlloc) :=
  ⟨rfl, Slab.runOps_filter_deallocs base cap ops len⟩

/-- C10: when the segment base address is not a multiple of the
requested power-of-two alignment, Slab.allocate fails with the
allocation error regardless of counter state or remaining capacity. -/
theorem slab_misaligned_base_errors (base cap len k : Nat) (layout : Layout)
    (halign : layout.align = 2 ^ k) (hmis : base % layout.align ≠ 0) :
    Slab.allocate base cap len layout = .allocError := by
  unfold Slab.allocate
  rw [halign] at hmis ⊢
  rw [land_pow_two_sub_one]
  exact if_pos hmis

/-- Witness for C10 at base 1, alignment 2. -/
theorem slab_misaligned_base_errors_witness :
    ((Layout.mk 4 2).align = 2 ^ 1 ∧ (1 : Nat) % (Layout.mk 4 2).align ≠ 0) ∧
    Slab.allocate 1 100 0 (Layout.mk 4 2) = .allocError :=
  ⟨⟨by decide, by decide⟩,
    slab_misaligned_base_errors 1 100 0 1 (Layout.mk 4 2) (by decide) (by decide)⟩

/-- C4: with a 10-byte segment, a first allocation of 10 bytes succeeds,
and a second request with alignment 16 rounds the counter to 16, past the
segment end; the usize subtraction cap - start then underflows (panic in
debug builds, wrap-around past the segment in release builds) instead of
returning the out-of-space error the claim requires. -/
theorem slab_align_rounding_past_end_underflows :
    Slab.allocate 0 10 0 (Layout.mk 10 1) = .ok 10 0 10 ∧
    Slab.allocate 0 10 10 (Layout.mk 1 16) = .underflow ∧
    Slab.allocate 0 10 10 (Layout.mk 1 16) ≠ .allocError := by
  refine ⟨by decide, by decide, by decide⟩

/-!
## Header-prefixed allocator (src/rel_allocators/src/prefix.rs)

PrefixHeader is repr(C, align(16)) with fields cap (the basis usize,
8 bytes little-endian for the default 64-bit basis), the control, and a
PhantomPinned.  With the Slab control (a Cell of the basis usize,
8 bytes) the header layout has size 16 and alignment 16.

split_prefix (lines 66-85) rejects a slot shorter than the header layout
size or whose address has a nonzero AND with align - 1.  try_new_in
(lines 112-139) reads max_cap = bytes.len() before splitting, constructs
the control over the suffix, then writes the header fields in place:
first cap := max_cap, then the control.  PrefixHeader::memory
(lines 54-64) returns the range starting right after the header with
length equal to the stored cap field.

Note that try_new_in stores the full segment length (max_cap) in the cap
field, while the bytes after the header only number max_cap - 16; the
range returned by memory therefore extends 16 bytes past the segment.
-/

/-- Size in bytes of PrefixHeader with the Slab control and the default
64-bit basis. -/
def PrefixHeader.size : Nat := 16

/-- Alignment of PrefixHeader from its repr(C, align(16)) attribute. -/
def PrefixHeader.align : Nat := 16

/-- Little-endian byte j of a 64-bit value. -/
def leByte (n j : Nat) : Nat := n / 256 ^ j % 256

/-- Store a 64-bit value little-endian at addr. -/
def writeU64 (m : Mem) (addr n : Nat) : Mem :=
  fun i => if addr ≤ i ∧ i < addr + 8 then leByte n (i - addr) else m i

/-- The state reachable through a Prefix allocator handle: the header
fields it wrote (cap and the embedded Slab control counter). -/
structure PrefixState where
  cap : Nat
  slabLen : Nat
deriving DecidableEq

/-- Prefix::try_new_in over the segment of len bytes at base, with the
Slab control and the default basis.  Models the split_prefix size and
alignment check, the Slab construction (counter zero), and the two header
field writes; on the error path the function performs no writes, which
the returned memory makes explicit. -/
def tryNewIn (base len : Nat) (m : Mem) :
    Option PrefixState × Mem :=
  if len < PrefixHeader.size ∨ base &&& (PrefixHeader.align - 1) ≠ 0 then
    (none, m)
  else
    (some { cap := len, slabLen := 0 },
      writeU64 (writeU64 m base len) (base + 8) 0)

/-- PrefixHeader::memory: the block of usable bytes handed to the
control, as (start address, length): everything after the header, with
length read from the stored cap field. -/
def PrefixHeader.memory (base : Nat) (st : PrefixState) : Nat × Nat :=
  (base + PrefixHeader.size, st.cap)

/-- Prefix::allocate: delegates to the Slab control over the range
computed by PrefixHeader::memory. -/
def prefixAllocate (base : Nat) (st : PrefixState) (layout : Layout) :
    SlabResult :=
  Slab.allocate (PrefixHeader.memory base st).1 (PrefixHeader.memory base st).2
    st.slabLen layout

/-- C8: try_new_in on a segment smaller than the header layout size, or
misaligned to 16 bytes, fails with the layout error and leaves every byte
of the segment unchanged. -/
theorem prefix_try_new_in_rejects_bad_segment (base len : Nat) (m : Mem)
    (h : len < 16 ∨ base % 16 ≠ 0) :
    tryNewIn base len m = (none, m) := by
  unfold tryNewIn
  rw [if_pos]
  show len < PrefixHeader.size ∨ base &&& (PrefixHeader.align - 1) ≠ 0
  have h15 : base &&& (PrefixHeader.align - 1) = base % 16 := by
    have := land_pow_two_sub_one base 4
    simpa [PrefixHeader.align] using this
  rw [h15]
  exact h

/-- Witness for C8: a misaligned 32-byte segment at address 8. -/
theorem prefix_try_new_in_rejects_bad_segment_witness :
    ((32 : Nat) < 16 ∨ (8 : Nat) % 16 ≠ 0) ∧
    tryNewIn 8 32 (fun _ => 7) = (none, fun _ => 7) :=
  ⟨Or.inr (by decide),
    prefix_try_new_in_rejects_bad_segment 8 32 (fun _ => 7) (Or.inr (by decide))⟩

/-- C5: the usable range handed to the control extends past the segment.
A 48-byte aligned segment at base 0 yields cap = 48; allocating 48 bytes
succeeds and returns the block at addresses 16..64, which ends 16 bytes
past the segment end 48, contradicting the claim that every returned
block is a sub-range of the segment. -/
theorem prefix_allocate_escapes_segment :
    (tryNewIn 0 48 (fun _ => 0)).1 = some { cap := 48, slabLen := 0 } ∧
    prefixAllocate 0 { cap := 48, slabLen := 0 } (Layout.mk 48 1)
      = .ok 48 16 48 ∧
    16 + 48 > 0 + 48 := by
  refine ⟨by decide, by decide, by decide⟩

/-!
## Control trait defaults (src/rel_allocators/src/control.rs)

A Control is modelled as its three primitive operations over an abstract
state type and the raw segment bytes:
  - allocate returns the updated state, the bytes (an implementation may
    write bookkeeping data), and the absolute address of the new block;
  - deallocate returns updated state and bytes;
  - grow_in_place is the fast path, whose default implementation
    (lines 244-254) unconditionally fails.
The provided grow (lines 95-147), grow_zeroed (lines 164-227) and
grow_zeroed_in_place (lines 269-294) defaults are translated below.
copy_nonoverlapping is modelled functionally: every copied byte is read
from the pre-copy memory, which is exactly the nonoverlapping contract.
-/

/-- copy_nonoverlapping of n bytes from src to dst. -/
def copyNonoverlapping (src dst n : Nat) (m : Mem) : Mem :=
  fun i => if dst ≤ i ∧ i < dst + n then m (src + (i - dst)) else m i

/-- write_bytes(dst, 0, n): zero-fill n bytes at dst. -/
def writeZeroBytes (dst n : Nat) (m : Mem) : Mem :=
  fun i => if dst ≤ i ∧ i < dst + n then 0 else m i

/-- A Control implementation: state type sigma plus the primitive
operations.  Blocks are identified by their absolute start address; a
returned block for layout l spans l.size bytes. -/
structure ControlModel (σ : Type) where
  allocate : σ → Mem → Layout → Option ((σ × Mem) × Nat)
  deallocate : σ → Mem → Nat → Layout → σ × Mem
  growInPlace : σ → Mem → Nat → Layout → Layout → Option ((σ × Mem) × Nat)

/-- The provided Control::grow: try grow_in_place; on failure allocate a
fresh block of the new layout, copy old_layout.size bytes forward,
deallocate the old block, and return the new block. -/
def ControlModel.grow {σ : Type} (c : ControlModel σ) (s : σ) (m : Mem)
    (ptr : Nat) (oldL newL : Layout) : Option ((σ × Mem) × Nat) :=
  match c.growInPlace s m ptr oldL newL with
  | some r => some r
  | none =>
    match c.allocate s m newL with
    | none => none
    | some ((s1, m1), newPtr) =>
      some (c.deallocate s1 (copyNonoverlapping ptr newPtr oldL.size m1)
        ptr oldL, newPtr)

/-- The provided Control::grow_zeroed_in_place: run grow_in_place, then
zero-fill the newly exposed tail bytes. -/
def ControlModel.growZeroedInPlace {σ : Type} (c : ControlModel σ) (s : σ)
    (m : Mem) (ptr : Nat) (oldL newL : Layout) :
    Option ((σ × Mem) × Nat) :=
  match c.growInPlace s m ptr oldL newL with
  | none => none
  | some ((s1, m1), p) =>
    some ((s1, writeZeroBytes (p + oldL.size) (newL.size - oldL.size) m1), p)

/-- The provided Control::grow_zeroed: try grow_zeroed_in_place; on
failure allocate a fresh block, copy the old bytes forward, zero-fill the
tail, deallocate the old block, and return the new block. -/
def ControlModel.growZeroed {σ : Type} (c : ControlModel σ) (s : σ) (m : Mem)
    (ptr : Nat) (oldL newL : Layout) : Option ((σ × Mem) × Nat) :=
  match c.growZeroedInPlace s m ptr oldL newL with
  | some r => some r
  | none =>
    match c.allocate s m newL with
    | none => none
    | some ((s1, m1), newPtr) =>
      some (c.deallocate s1
        (writeZeroBytes (newPtr + oldL.size) (newL.size - oldL.size)
          (copyNonoverlapping ptr newPtr oldL.size m1))
        ptr oldL, newPtr)

/-- Modelled from the spec: grow is observably equivalent to
allocate-new, copy old bytes forward, deallocate-old, return the new
block.  This is the comparison definition for the refinement claim; it
omits the in-place attempt entirely. -/
def ControlModel.growSpec {σ : Type} (c : ControlModel σ) (s : σ) (m : Mem)
    (ptr : Nat) (oldL newL : Layout) : Option ((σ × Mem) × Nat) :=
  match c.allocate s m newL with
  | none => none
  | some ((s1, m1), newPtr) =>
    some (c.deallocate s1 (copyNonoverlapping ptr newPtr oldL.size m1)
      ptr oldL, newPtr)

/-- C6: for a Control whose grow_in_place always fails (the default),
grow equals the allocate-copy-deallocate composition, fails exactly when
the fresh allocation fails, and the first old_layout.size bytes of the
returned block equal the pre-grow contents of the old block.  The frame
hypotheses are the Control contract: allocate leaves the bytes of the
live old block unchanged, returns a fresh block disjoint from it, and
deallocate writes only within the block it frees. -/
theorem control_grow_default_refines_copy {σ : Type} (c : ControlModel σ)
    (s : σ) (m : Mem) (ptr : Nat) (oldL newL : Layout)
    (hgip : ∀ s' m' p ol nl, c.growInPlace s' m' p ol nl = none)
    (hsize : oldL.size ≤ newL.size)
    (hpres : ∀ r, c.allocate s m newL = some r →
      ∀ i, ptr ≤ i → i < ptr + oldL.size → r.1.2 i = m i)
    (hdisj : ∀ r, c.allocate s m newL = some r →
      ptr + oldL.size ≤ r.2 ∨ r.2 + newL.size ≤ ptr)
    (hdframe : ∀ s2 m2 i, i < ptr ∨ ptr + oldL.size ≤ i →
      (c.deallocate s2 m2 ptr oldL).2 i = m2 i) :
    c.grow s m ptr oldL newL = c.growSpec s m ptr oldL newL ∧
    (c.grow s m ptr oldL newL = none ↔ c.allocate s m newL = none) ∧
    (∀ r, c.grow s m ptr oldL newL = some r →
      ∀ i, i < oldL.size → r.1.2 (r.2 + i) = m (ptr + i)) := by
  have hg : c.grow s m ptr oldL newL = c.growSpec s m ptr oldL newL := by
    unfold ControlModel.grow ControlModel.growSpec
    rw [hgip]
  refine ⟨hg, ?_, ?_⟩
  · rw [hg]
    unfold ControlModel.growSpec
    cases halloc : c.allocate s m newL with
    | none => simp
    | some r =>
      obtain ⟨⟨s1, m1⟩, np⟩ := r
      simp
  · intro r hr i hi
    rw [hg] at hr
    unfold ControlModel.growSpec at hr
    cases halloc : c.allocate s m newL with
    | none => rw [halloc] at hr; exact absurd hr (by simp)
    | some ra =>
      obtain ⟨⟨s1, m1⟩, np⟩ := ra
      rw [halloc] at hr
      have hvals :
          (c.deallocate s1 (copyNonoverlapping ptr np oldL.size m1) ptr oldL,
            np) = r := Option.some.inj hr
      have hmem : r.1.2
          = (c.deallocate s1 (copyNonoverlapping ptr np oldL.size m1)
              ptr oldL).2 := by rw [← hvals]
      have hnp : r.2 = np := by rw [← hvals]
      rw [hmem, hnp]
      have hout : np + i < ptr ∨ ptr + oldL.size ≤ np + i := by
        rcases hdisj ((s1, m1), np) halloc with h | h
        · right; omega
        · left; omega
      rw [hdframe s1 _ (np + i) hout]
      show (if np ≤ np + i ∧ np + i < np + oldL.size
        then m1 (ptr + (np + i - np)) else m1 (np + i)) = m (ptr + i)
      rw [if_pos ⟨Nat.le_add_right np i, by omega⟩]
      have hidx : np + i - np = i := by omega
      rw [hidx]
      exact hpres ((s1, m1), np) halloc (ptr + i) (Nat.le_add_right ptr i)
        (by omega)

/-- A minimal concrete Control used to witness the grow theorems: a bump
counter state, blocks handed out at address 100 * (state + 1), no byte
writes in allocate or deallocate, and the default failing grow_in_place. -/
def witnessControl : ControlModel Nat where
  allocate := fun s m _l => some ((s + 1, m), 100 * (s + 1))
  deallocate := fun s m _p _l => (s, m)
  growInPlace := fun _ _ _ _ _ => none

/-- Witness for C6: the concrete control at state 0, growing the block
at address 0 from 2 bytes to 3. -/
theorem control_grow_default_refines_copy_witness :
    witnessControl.grow 0 (fun i => i + 1) 0 (Layout.mk 2 1) (Layout.mk 3 1)
      = witnessControl.growSpec 0 (fun i => i + 1) 0 (Layout.mk 2 1)
          (Layout.mk 3 1) :=
  (control_grow_default_refines_copy witnessControl 0 (fun i => i + 1) 0
    (Layout.mk 2 1) (Layout.mk 3 1)
    (fun _ _ _ _ _ => rfl) (by decide)
    (by intro r h i h1 h2; cases h; rfl)
    (by intro r h; cases h; left; decide)
    (fun _ _ _ _ => rfl)).1

/-- C7: for a Control whose grow_in_place always fails (the default),
grow_zeroed copies the old bytes into the fresh block and zero-fills
exactly the newly exposed tail: on success, the first old_layout.size
bytes of the returned block equal the pre-grow contents and every byte at
offsets old_layout.size up to new_layout.size reads as zero. -/
theorem control_grow_zeroed_default_zero_tail {σ : Type} (c : ControlModel σ)
    (s : σ) (m : Mem) (ptr : Nat) (oldL newL : Layout)
    (hgip : ∀ s' m' p ol nl, c.growInPlace s' m' p ol nl = none)
    (hsize : oldL.size ≤ newL.size)
    (hpres : ∀ r, c.allocate s m newL = some r →
      ∀ i, ptr ≤ i → i < ptr + oldL.size → r.1.2 i = m i)
    (hdisj : ∀ r, c.allocate s m newL = some r →
      ptr + oldL.size ≤ r.2 ∨ r.2 + newL.size ≤ ptr)
    (hdframe : ∀ s2 m2 i, i < ptr ∨ ptr + oldL.size ≤ i →
      (c.deallocate s2 m2 ptr oldL).2 i = m2 i) :
    ∀ r, c.growZeroed s m ptr oldL newL = some r →
      (∀ i, i < oldL.size → r.1.2 (r.2 + i) = m (ptr + i)) ∧
      (∀ i, oldL.size ≤ i → i < newL.size → r.1.2 (r.2 + i) = 0) := by
  intro r hr
  have hzg : c.growZeroed s m ptr oldL newL =
      match c.allocate s m newL with
      | none => none
      | some ((s1, m1), newPtr) =>
        some (c.deallocate s1
          (writeZeroBytes (newPtr + oldL.size) (newL.size - oldL.size)
            (copyNonoverlapping ptr newPtr oldL.size m1))
          ptr oldL, newPtr) := by
    unfold ControlModel.growZeroed ControlModel.growZeroedInPlace
    rw [hgip]
  rw [hzg] at hr
  cases halloc : c.allocate s m newL with
  | none => rw [halloc] at hr; exact absurd hr (by simp)
  | some ra =>
    obtain ⟨⟨s1, m1⟩, np⟩ := ra
    rw [halloc] at hr
    have hvals :
        (c.deallocate s1
          (writeZeroBytes (np + oldL.size) (newL.size - oldL.size)
            (copyNonoverlapping ptr np oldL.size m1))
          ptr oldL, np) = r := Option.some.inj hr
    have hmem : r.1.2
        = (c.deallocate s1
            (writeZeroBytes (np + oldL.size) (newL.size - oldL.size)
              (copyNonoverlapping ptr np oldL.size m1))
            ptr oldL).2 := by rw [← hvals]
    have hnp : r.2 = np := by rw [← hvals]
    constructor
    · intro i hi
      rw [hmem, hnp]
      have hout : np + i < ptr ∨ ptr + oldL.size ≤ np + i := by
        rcases hdisj ((s1, m1), np) halloc with h | h
        · right; omega
        · left; omega
      rw [hdframe s1 _ (np + i) hout]
      show (if np + oldL.size ≤ np + i ∧
          np + i < np + oldL.size + (newL.size - oldL.size)
        then 0 else copyNonoverlapping ptr np oldL.size m1 (np + i))
        = m (ptr + i)
      rw [if_neg (by omega)]
      show (if np ≤ np + i ∧ np + i < np + oldL.size
        then m1 (ptr + (np + i - np)) else m1 (np + i)) = m (ptr + i)
      rw [if_pos ⟨Nat.le_add_right np i, by omega⟩]
      have hidx : np + i - np = i := by omega
      rw [hidx]
      exact hpres ((s1, m1), np) halloc (ptr + i) (Nat.le_add_right ptr i)
        (by omega)
    · intro i hi1 hi2
      rw [hmem, hnp]
      have hout : np + i < ptr ∨ ptr + oldL.size ≤ np + i := by
        rcases hdisj ((s1, m1), np) halloc with h | h
        · right; omega
        · left; omega
      rw [hdframe s1 _ (np + i) hout]
      show (if np + oldL.size ≤ np + i ∧
          np + i < np + oldL.size + (newL.size - oldL.size)
        then 0 else copyNonoverlapping ptr np oldL.size m1 (np + i)) = 0
      rw [if_pos ⟨by omega, by omega⟩]

/-- Witness for C7: the concrete control at state 0, growing the block at
address 0 from 2 bytes to 3; byte 0 of the returned block holds the old
contents and byte 2 reads as zero. -/
theorem control_grow_zeroed_default_zero_tail_witness :
    (witnessControl.growZeroed 0 (fun i => i + 1) 0 (Layout.mk 2 1)
        (Layout.mk 3 1)).map (fun r => (r.1.2 (r.2 + 0), r.1.2 (r.2 + 2)))
      = some (1, 0) := by
  have h := control_grow_zeroed_default_zero_tail witnessControl 0
    (fun i => i + 1) 0 (Layout.mk 2 1) (Layout.mk 3 1)
    (fun _ _ _ _ _ => rfl) (by decide)
    (by intro r hr i h1 h2; cases hr; rfl)
    (by intro r hr; cases hr; left; decide)
    (fun _ _ _ _ => rfl)
  cases hg : witnessControl.growZeroed 0 (fun i => i + 1) 0 (Layout.mk 2 1)
      (Layout.mk 3 1) with
  | none =>
    have hsome : (none : Option ((Nat × Mem) × Nat)).isSome = true := by
      rw [← hg]; rfl
    exact absurd hsome (by decide)
  | some r =>
    obtain ⟨hcopy, hzero⟩ := h r hg
    show some (r.1.2 (r.2 + 0), r.1.2 (r.2 + 2)) = some (1, 0)
    rw [hcopy 0 (by decide), hzero 2 (by decide) (by decide)]

/-!
## RelShortString (src/experiments/src/short_string.rs)

The structure holds repr (a MaybeUninit union of either the inline bytes
or an initialized pair of a relative pointer and a length), cap (the
basis usize) and the allocator handle.  INLINE_CAPACITY is the byte size
of the out-of-line Repr: a RelPtr (one 64-bit offset) plus the basis
usize length, 16 bytes.  The RelPtr and basis pieces are modelled from
the spec, which fixes the default basis at 64-bit little-endian integers
and relative pointers at one signed offset recomputed against their own
address; here a relative pointer is represented directly by the absolute
address of its pointee, and inline_capacity is 16 as in the spec
scenarios.

Fields of the model mirror what the source writes: reprInline is the
byte list copied into the repr storage by the inline branch, reprPtr and
reprLen are the out-of-line pair written by the spill branch, cap is the
top-level capacity field.  Every field is an Option whose none means the
field was never written; an accessor that reads an unwritten field
returns none (the read Rust leaves undefined). -/

/-- INLINE_CAPACITY: size_of of the out-of-line Repr (8-byte RelPtr plus
8-byte basis usize). -/
def INLINE_CAPACITY : Nat := 16

structure RelShortString where
  reprInline : Option (List Nat)
  reprPtr : Option Nat
  reprLen : Option Nat
  cap : Option Nat
deriving DecidableEq

/-- internal_cap (lines 147-150): reads the cap field. -/
def RelShortString.internalCap (st : RelShortString) : Option Nat := st.cap

/-- is_inline (lines 152-155): internal_cap() <= INLINE_CAPACITY. -/
def RelShortString.isInline (st : RelShortString) : Option Bool :=
  st.internalCap.map (fun c => decide (c ≤ INLINE_CAPACITY))

/-- capacity (lines 157-161): max(internal_cap(), INLINE_CAPACITY). -/
def RelShortString.capacity (st : RelShortString) : Option Nat :=
  st.internalCap.map (fun c => max c INLINE_CAPACITY)

/-- len (lines 188-199): inline strings report the cap field itself,
spilled strings report the out-of-line length field. -/
def RelShortString.len (st : RelShortString) : Option Nat :=
  match st.isInline with
  | none => none
  | some true => st.internalCap
  | some false => st.reprLen

/-- is_empty (lines 201-205): len() == 0. -/
def RelShortString.isEmpty (st : RelShortString) : Option Bool :=
  st.len.map (fun n => decide (n = 0))

/-- as_bytes (lines 70-97): a slice of len() bytes, read from the repr
storage when inline and through the relative pointer when spilled.  The
inline read is defined only for the bytes the emplacer actually wrote. -/
def RelShortString.asBytes (st : RelShortString) (m : Mem) :
    Option (List Nat) :=
  match st.isInline, st.len with
  | some true, some n =>
    match st.reprInline with
    | some w => if n ≤ w.length then some (w.take n) else none
    | none => none
  | some false, some n =>
    match st.reprPtr with
    | some p => some ((List.range n).map (fun i => m (p + i)))
    | none => none
  | _, _ => none

/-- clear (lines 163-183): the inline branch writes cap :=
INLINE_CAPACITY, the spilled branch writes the out-of-line length := 0. -/
def RelShortString.clear (st : RelShortString) : Option RelShortString :=
  match st.isInline with
  | none => none
  | some true => some { st with cap := some INLINE_CAPACITY }
  | some false => some { st with reprLen := some 0 }

/-- Result of running the Clone emplacer against a Slab-backed
region-bound allocator: the emplaced structure (none when the source
aborts because allocate failed), the allocator counter afterward, the
segment bytes afterward, and the allocation requests issued. -/
structure EmplaceResult where
  str : Option RelShortString
  slabLen : Nat
  mem : Mem
  allocCalls : List Layout

/-- copy_nonoverlapping from a byte list into memory at addr. -/
def writeList (m : Mem) (addr : Nat) (bytes : List Nat) : Mem :=
  fun i => if addr ≤ i ∧ i < addr + bytes.length
    then bytes.getD (i - addr) 0 else m i

/-- Clone::emplace_unsized_unchecked (lines 250-311) with a Slab-backed
allocator over the segment (base, cap) at counter slabLen.  The inline
branch writes cap := len and copies the source bytes into the repr
storage.  The spill branch allocates Layout::array of u8 with length len
(size len, align 1), copies the source bytes into the new block, and
writes the out-of-line pointer and length; as in the source, the
top-level cap field is not written in this branch.  The final
self.0.emplace(alloc) stores the allocator handle and is not otherwise
modelled. -/
def cloneEmplace (src : List Nat) (base cap slabLen : Nat) (m : Mem) :
    EmplaceResult :=
  if src.length ≤ INLINE_CAPACITY then
    { str := some (RelShortString.mk (some src) none none (some src.length)),
      slabLen := slabLen, mem := m, allocCalls := [] }
  else
    match Slab.allocate base cap slabLen (Layout.mk src.length 1) with
    | .ok newLen addr _sz =>
      { str := some (RelShortString.mk none (some addr) (some src.length) none),
        slabLen := newLen, mem := writeList m addr src,
        allocCalls := [Layout.mk src.length 1] }
    | _ =>
      { str := none, slabLen := slabLen, mem := m,
        allocCalls := [Layout.mk src.length 1] }

/-- The bytes of the string hello. -/
def src5 : List Nat := [104, 101, 108, 108, 111]

/-- A 17-byte source, one byte above INLINE_CAPACITY. -/
def src17 : List Nat := List.replicate 17 104

/-- C1: round-tripping works for the inline case (hello reads back with
len 5), but emplacing a 17-byte source leaves the cap field unwritten,
so len() and as_bytes() read an uninitialized field instead of returning
17 and the source bytes. -/
theorem shortstring_roundtrip_spilled_reads_uninit :
    ((cloneEmplace src5 0 1024 0 (fun _ => 0)).str.bind
        RelShortString.len) = some 5 ∧
    ((cloneEmplace src5 0 1024 0 (fun _ => 0)).str.bind
        (fun st => st.asBytes (cloneEmplace src5 0 1024 0 (fun _ => 0)).mem))
      = some src5 ∧
    (cloneEmplace src17 0 1024 0 (fun _ => 0)).str
      = some (RelShortString.mk none (some 0) (some 17) none) ∧
    ((cloneEmplace src17 0 1024 0 (fun _ => 0)).str.bind
        RelShortString.len) = none ∧
    ((cloneEmplace src17 0 1024 0 (fun _ => 0)).str.bind
        (fun st => st.asBytes (cloneEmplace src17 0 1024 0 (fun _ => 0)).mem))
      = none := by
  refine ⟨by decide, by decide, by decide, by decide, by decide⟩

/-- C2: emplacing a 17-byte source issues exactly one allocation, of
size 17 with alignment 1, and advances the Slab counter by 17; but the
top-level cap field is never written in the spill branch, so capacity()
reads an uninitialized field instead of holding a value above
INLINE_CAPACITY. -/
theorem shortstring_spill_allocates_once_but_cap_unwritten :
    (cloneEmplace src17 0 1024 0 (fun _ => 0)).allocCalls
      = [Layout.mk 17 1] ∧
    (cloneEmplace src17 0 1024 0 (fun _ => 0)).slabLen = 17 ∧
    ((cloneEmplace src17 0 1024 0 (fun _ => 0)).str.bind
        (fun st => st.cap)) = none ∧
    ((cloneEmplace src17 0 1024 0 (fun _ => 0)).str.bind
        RelShortString.capacity) = none := by
  refine ⟨by decide, by decide, by decide, by decide⟩

/-- C3: clearing the inline string hello sets cap := INLINE_CAPACITY, so
is_empty() afterward is false (len() reports 16), contradicting the
claim; capacity() is indeed unchanged (16 before and after). -/
theorem shortstring_clear_inline_not_empty :
    ((cloneEmplace src5 0 1024 0 (fun _ => 0)).str.bind
        RelShortString.clear)
      = some (RelShortString.mk (some src5) none none (some 16)) ∧
    (((cloneEmplace src5 0 1024 0 (fun _ => 0)).str.bind
        RelShortString.clear).bind RelShortString.isEmpty) = some false ∧
    (((cloneEmplace src5 0 1024 0 (fun _ => 0)).str.bind
        RelShortString.clear).bind RelShortString.capacity) = some 16 ∧
    ((cloneEmplace src5 0 1024 0 (fun _ => 0)).str.bind
        RelShortString.capacity) = some 16 := by
  refine ⟨by decide, by decide, by decide, by decide⟩
